import Mathlib

/-!
Verification of the DC-circuit simulation in `src/App.tsx` (first document).

The simulation state consists of the React state hooks (`isCircuitClosed`,
`isBatteryDead`, `electrolyteHeight`, `visibleIons`, `electrons`,
`batteryElectrons`), the refs (`lastTimeRef`, `batteryElectronIdCounter`) and
the animation-effect local `lastSecond`.  One invocation of the `loop`
callback (lines 77-123) is modelled by `Circuit.loop`; the click handler
`handleToggle` (lines 129-138) by `Circuit.handleToggle`.  JavaScript numbers
are idealised as exact rationals for the track / battery arithmetic and as
real numbers for the chemistry particles (whose update uses `Math.sqrt`).
-/

namespace Circuit

/-- `TRACK_W` from `src/App.tsx` line 8 (midline width, 635). -/
def TRACK_W : ℚ := 635

/-- `TRACK_H` from `src/App.tsx` line 9 (midline height, 385). -/
def TRACK_H : ℚ := 385

/-- `PERIMETER = 2 * (TRACK_W + TRACK_H)` from `src/App.tsx` line 10 (2040). -/
def PERIMETER : ℚ := 2 * (TRACK_W + TRACK_H)

/-- `RAIL_OFFSET` from `src/App.tsx` line 17 (7.5). -/
def RAIL_OFFSET : ℚ := 7.5

/-- `SPEED_PX_S` from `src/App.tsx` line 12 (20 px/s). -/
def SPEED_PX_S : ℚ := 20

/-- `ELECTROLYTE_DRAIN_S` from `src/App.tsx` line 13 (5 per depletion event). -/
def ELECTROLYTE_DRAIN_S : ℤ := 5

/-- `ION_DRAIN_S` from `src/App.tsx` line 14 (5 per depletion event). -/
def ION_DRAIN_S : ℤ := 5

/-- Result record of `getXY` (`src/App.tsx` lines 19-48): point, tangent
angle and axis orientation on the rectangular track. -/
structure XY where
  x : ℚ
  y : ℚ
  angle : ℚ
  isHorizontal : Bool
deriving DecidableEq, Repr

/-- `getXY` from `src/App.tsx` lines 19-48: the piecewise mapping from a
track coordinate to a 2D point with tangent angle and axis flag.  The four
branches are, in source order: top (left to right), right (top to bottom),
bottom (right to left), left (bottom to top). -/
def getXY (trackPos : ℚ) : XY :=
  if trackPos ≤ TRACK_W then
    ⟨RAIL_OFFSET + trackPos, RAIL_OFFSET, 0, true⟩
  else if trackPos ≤ TRACK_W + TRACK_H then
    ⟨RAIL_OFFSET + TRACK_W, RAIL_OFFSET + (trackPos - TRACK_W), 90, false⟩
  else if trackPos ≤ 2 * TRACK_W + TRACK_H then
    ⟨RAIL_OFFSET + TRACK_W - (trackPos - (TRACK_W + TRACK_H)), RAIL_OFFSET + TRACK_H, 180, true⟩
  else
    ⟨RAIL_OFFSET, RAIL_OFFSET + TRACK_H - (trackPos - (2 * TRACK_W + TRACK_H)), 270, false⟩

/-- Truncation toward zero, as used by the JavaScript `%` operator. -/
def ratTrunc (q : ℚ) : ℤ := if 0 ≤ q then ⌊q⌋ else ⌈q⌉

/-- The JavaScript remainder operator `x % y`: `x - y * trunc (x / y)`.
The result has the sign of the dividend `x`; it is NOT a mathematical
modulus for negative `x`. -/
def jsMod (x y : ℚ) : ℚ := x - y * (ratTrunc (x / y) : ℚ)

/-- One element of the `electrons` state array (`src/App.tsx` lines 63-69):
a stationary carrier with its track coordinate, fixed transverse offset and
frozen idle-vibration parameters. -/
structure Electron where
  trackPos : ℚ
  transversePos : ℚ
  vx : ℚ
  vy : ℚ
  vfreq : String
deriving DecidableEq, Repr

/-- One element of the `batteryElectrons` state array (`src/App.tsx`
lines 98-103): a transient chemistry carrier with its unique id and
2D position. -/
structure Chem where
  id : ℕ
  x : ℝ
  y : ℝ

/-- The complete simulation state: the six React state hooks, the two refs
(`lastTimeRef` as `lastTime`, `batteryElectronIdCounter` as `idCounter`) and
the animation-effect local variable `lastSecond`. -/
structure SimState where
  isCircuitClosed : Bool
  isBatteryDead : Bool
  electrolyteHeight : ℤ
  visibleIons : ℤ
  electrons : List Electron
  batteryElectrons : List Chem
  lastTime : ℚ
  lastSecond : ℚ
  idCounter : ℕ

/-- Per-frame environment inputs: the `requestAnimationFrame` timestamp and
the three `Math.random()` draws consumed by the spawn branch (the spawn
decision sample and the two position samples). -/
structure FrameInput where
  time : ℚ
  rand : ℚ
  r1 : ℚ
  r2 : ℚ

/-- The energized condition `isCircuitClosed && !isBatteryDead`
(`src/App.tsx` line 82), evaluated from the effect-closure values, which
coincide with the committed state at frame start. -/
def energized (s : SimState) : Bool := s.isCircuitClosed && !s.isBatteryDead

/-- `deltaTime` of one `loop` invocation (`src/App.tsx` lines 78-79):
`(time - lastTimeRef.current) / 1000`, where an unset (falsy, i.e. zero)
`lastTimeRef.current` is first replaced by the current timestamp, so such a
frame measures zero elapsed time. -/
def frameDelta (s : SimState) (time : ℚ) : ℚ :=
  (time - (if s.lastTime = 0 then time else s.lastTime)) / 1000

/-- The per-electron update of `src/App.tsx` lines 83-86:
`trackPos := (trackPos + SPEED_PX_S * deltaTime) % PERIMETER`, all other
fields spread unchanged. -/
def advanceElectron (dt : ℚ) (e : Electron) : Electron :=
  { e with trackPos := jsMod (e.trackPos + SPEED_PX_S * dt) PERIMETER }

/-- The once-per-second depletion guard of `src/App.tsx` line 88: the frame
is energized and `time - lastSecond >= 1000`. -/
def firesDepletion (s : SimState) (f : FrameInput) : Bool :=
  energized s && decide ((1000 : ℚ) ≤ f.time - s.lastSecond)

/-- The spawn guard of `src/App.tsx` line 98: the frame is energized and
`Math.random() > 0.7`. -/
def spawnsChem (s : SimState) (f : FrameInput) : Bool :=
  energized s && decide ((7 : ℚ) / 10 < f.rand)

/-- `electrons` after one frame (`src/App.tsx` lines 82-86): advanced only
when energized, untouched otherwise. -/
def newElectrons (s : SimState) (f : FrameInput) : List Electron :=
  if energized s then s.electrons.map (advanceElectron (frameDelta s f.time)) else s.electrons

/-- `electrolyteHeight` after one frame (`src/App.tsx` lines 90-94):
`max(0, h - ELECTROLYTE_DRAIN_S)` when the depletion event fires, unchanged
otherwise. -/
def newElectrolyte (s : SimState) (f : FrameInput) : ℤ :=
  if firesDepletion s f then max 0 (s.electrolyteHeight - ELECTROLYTE_DRAIN_S)
  else s.electrolyteHeight

/-- `isBatteryDead` after one frame (`src/App.tsx` line 92): set to `true`
exactly when the depletion event fires and the new electrolyte height is 0,
otherwise kept. -/
def newDead (s : SimState) (f : FrameInput) : Bool :=
  if firesDepletion s f && decide (newElectrolyte s f = 0) then true else s.isBatteryDead

/-- `visibleIons` after one frame (`src/App.tsx` line 95). -/
def newIons (s : SimState) (f : FrameInput) : ℤ :=
  if firesDepletion s f then max 0 (s.visibleIons - ION_DRAIN_S) else s.visibleIons

/-- `lastSecond` after one frame: set to `time` when the depletion event
fires (`src/App.tsx` line 89).  When the frame changes `isBatteryDead`, the
animation effect (dependencies `[isCircuitClosed, isBatteryDead]`,
`src/App.tsx` line 127) is torn down and re-run before the next frame, which
re-initialises its local `let lastSecond = 0` (line 75). -/
def newLastSecond (s : SimState) (f : FrameInput) : ℚ :=
  if newDead s f = s.isBatteryDead then
    (if firesDepletion s f then f.time else s.lastSecond)
  else 0

/-- The spawn step (`src/App.tsx` lines 98-103): when energized and the
draw exceeds 0.7, append one chemistry carrier with the next id at
`(350 + r1 * 45, (RAIL_OFFSET - 37.5) + r2 * 70)` (with
`RAIL_OFFSET = 7.5`) and bump the counter. -/
noncomputable def spawnedChem (s : SimState) (f : FrameInput) : List Chem × ℕ :=
  if spawnsChem s f then
    (s.batteryElectrons ++ [⟨s.idCounter, 350 + (f.r1 : ℝ) * 45, ((7.5 : ℝ) - 37.5) + (f.r2 : ℝ) * 70⟩],
      s.idCounter + 1)
  else (s.batteryElectrons, s.idCounter)

/-- Distance from a chemistry carrier to the fixed target
`(targetX, targetY) = (325 + 75, RAIL_OFFSET) = (400, 7.5)`
(`src/App.tsx` lines 107-111): `Math.sqrt(dx*dx + dy*dy)`. -/
noncomputable def distToTarget (be : Chem) : ℝ :=
  Real.sqrt ((325 + 75 - be.x) * (325 + 75 - be.x) + (7.5 - be.y) * (7.5 - be.y))

/-- The movement branch of `src/App.tsx` lines 115-119: the carrier moves
along the unit direction `(dx / dist, dy / dist)` toward the target by
`100 * deltaTime`. -/
noncomputable def moveOne (dt : ℚ) (be : Chem) : Chem :=
  { be with
    x := be.x + (325 + 75 - be.x) / distToTarget be * 100 * (dt : ℝ),
    y := be.y + (7.5 - be.y) / distToTarget be * 100 * (dt : ℝ) }

/-- The per-carrier chemistry update of `src/App.tsx` lines 106-120: a
carrier within distance 5 of the target is marked dead and filtered out
(`none`); otherwise it moves by `moveOne`. -/
noncomputable def stepOne (dt : ℚ) (be : Chem) : Option Chem :=
  if distToTarget be < 5 then none else some (moveOne dt be)

/-- All state components of one `loop` invocation except the chemistry
advance: electron motion, battery depletion, spawning, and the timestamp
bookkeeping, in the source order of `src/App.tsx` lines 77-103. -/
noncomputable def frameCore (f : FrameInput) (s : SimState) : SimState :=
  { isCircuitClosed := s.isCircuitClosed
    isBatteryDead := newDead s f
    electrolyteHeight := newElectrolyte s f
    visibleIons := newIons s f
    electrons := newElectrons s f
    batteryElectrons := (spawnedChem s f).1
    lastTime := f.time
    lastSecond := newLastSecond s f
    idCounter := (spawnedChem s f).2 }

/-- One full `loop` invocation (`src/App.tsx` lines 77-123): the core step
followed by the unconditional chemistry advance (lines 106-120), which uses
this frame's `deltaTime` and also processes carriers spawned this frame
(React applies the two functional updates in order). -/
noncomputable def loop (f : FrameInput) (s : SimState) : SimState :=
  let c := frameCore f s
  { c with batteryElectrons := c.batteryElectrons.filterMap (stepOne (frameDelta s f.time)) }

/-- A run: fold `loop` over a list of frame inputs. -/
noncomputable def run (s : SimState) : List FrameInput → SimState
  | [] => s
  | f :: fs => run (loop f s) fs

/-- `handleToggle` from `src/App.tsx` lines 129-138: while dead, restore
`electrolyteHeight = 75`, `visibleIons = 75`, clear `isBatteryDead` and force
`isCircuitClosed = false`; otherwise flip `isCircuitClosed`.  Every toggle
changes `isCircuitClosed` or `isBatteryDead`, so the animation effect re-runs
and its local `lastSecond` restarts at 0; the ref `lastTimeRef` persists. -/
def handleToggle (s : SimState) : SimState :=
  if s.isBatteryDead then
    { s with electrolyteHeight := 75, visibleIons := 75,
             isBatteryDead := false, isCircuitClosed := false, lastSecond := 0 }
  else
    { s with isCircuitClosed := !s.isCircuitClosed, lastSecond := 0 }

/-- The initial component state (`src/App.tsx` lines 51-60): circuit open,
battery alive, both gauges at 75, no chemistry carriers, refs zeroed; the
initial stationary carriers are drawn randomly, so they are a parameter. -/
def initState (es : List Electron) : SimState :=
  ⟨false, false, 75, 75, es, [], 0, 0, 0⟩

/-- Number of depletion events that fire during a run. -/
noncomputable def eventsFired : SimState → List FrameInput → ℕ
  | _, [] => 0
  | s, f :: fs => (if firesDepletion s f then 1 else 0) + eventsFired (loop f s) fs

/-- Iterated per-carrier chemistry stepping with a fixed per-frame
`deltaTime` (the lifecycle of one transient carrier over `n` frames). -/
noncomputable def stepN (dt : ℚ) : ℕ → Option Chem → Option Chem
  | 0, o => o
  | n + 1, o => stepN dt n (o.bind (stepOne dt))

/-- States reachable from a fresh component by frames and toggles. -/
inductive Reachable : SimState → Prop where
  | init : ∀ es, Reachable (initState es)
  | frame : ∀ s f, Reachable s → Reachable (loop f s)
  | tog : ∀ s, Reachable s → Reachable (handleToggle s)

/-- Battery invariant tying a state to the number of depletion events that
have fired since the circuit was closed on a fresh battery. -/
def InvB (s : SimState) (n : ℕ) : Prop :=
  s.isCircuitClosed = true ∧ n ≤ 15 ∧
    s.electrolyteHeight = max 0 (75 - 5 * (n : ℤ)) ∧
    s.isBatteryDead = decide (15 ≤ n)

/-- A stationary carrier at track coordinate 0 (vibration data zeroed). -/
def eZero : Electron := { trackPos := 0, transversePos := 0, vx := 0, vy := 0, vfreq := "" }

/-- A stationary carrier at track coordinate 2030. -/
def e2030 : Electron := { eZero with trackPos := 2030 }

/-- A frame input at timestamp `t` whose random draws are all 0 (so no
chemistry carrier is spawned). -/
def fIn (t : ℚ) : FrameInput := ⟨t, 0, 0, 0⟩

/-- A closed-circuit state one depletion event away from exhaustion
(electrolyte at 5), with one carrier at coordinate 0 and a baseline
timestamp of 1000 ms.  It is the state reached after 14 depletion events
from a fresh battery. -/
def stateC3 : SimState :=
  { isCircuitClosed := true, isBatteryDead := false, electrolyteHeight := 5, visibleIons := 5,
    electrons := [eZero], batteryElectrons := [], lastTime := 1000, lastSecond := 1000,
    idCounter := 0 }

/-- A healthy closed-circuit state with one carrier at coordinate 2030. -/
def state2030 : SimState :=
  { stateC3 with electrons := [e2030], electrolyteHeight := 75, visibleIons := 75 }

/-- A state whose stored baseline timestamp (2000 ms) is later than the
next frame timestamp used against it. -/
def stateNeg : SimState := { stateC3 with lastTime := 2000 }

/-- A dead-battery state with a closed switch and drained gauges. -/
def stateDead : SimState :=
  { stateC3 with isBatteryDead := true, electrolyteHeight := 0, visibleIons := 0 }

/-- A transient chemistry carrier 50 units right of the target, on the
target's horizontal line. -/
noncomputable def chemA : Chem := ⟨0, 450, 7.5⟩

/-- A transient chemistry carrier 50 units left of the target, on the
target's horizontal line. -/
noncomputable def chemB : Chem := ⟨0, 350, 7.5⟩

/-- A transient chemistry carrier 100 units left of the target. -/
noncomputable def chemC : Chem := ⟨0, 300, 7.5⟩

section Lemmas

/-- The chemistry advance does not touch `isCircuitClosed`. -/
theorem loop_isCircuitClosed (f : FrameInput) (s : SimState) :
    (loop f s).isCircuitClosed = s.isCircuitClosed := rfl

/-- The dead flag after one frame is `newDead`. -/
theorem loop_isBatteryDead (f : FrameInput) (s : SimState) :
    (loop f s).isBatteryDead = newDead s f := rfl

/-- The electrolyte height after one frame is `newElectrolyte`. -/
theorem loop_electrolyteHeight (f : FrameInput) (s : SimState) :
    (loop f s).electrolyteHeight = newElectrolyte s f := rfl

/-- The ion budget after one frame is `newIons`. -/
theorem loop_visibleIons (f : FrameInput) (s : SimState) :
    (loop f s).visibleIons = newIons s f := rfl

/-- The stationary carriers after one frame are `newElectrons`. -/
theorem loop_electrons (f : FrameInput) (s : SimState) :
    (loop f s).electrons = newElectrons s f := rfl

/-- Every frame overwrites the baseline ref with its own timestamp. -/
theorem loop_lastTime (f : FrameInput) (s : SimState) :
    (loop f s).lastTime = f.time := rfl

/-- The JavaScript remainder of a nonnegative dividend by a positive
divisor lies in `[0, y)`. -/
theorem jsMod_bounds (x y : ℚ) (hx : 0 ≤ x) (hy : 0 < y) :
    0 ≤ jsMod x y ∧ jsMod x y < y := by
  have hq : 0 ≤ x / y := div_nonneg hx hy.le
  rw [jsMod, ratTrunc, if_pos hq]
  have h1 : (⌊x / y⌋ : ℚ) ≤ x / y := Int.floor_le _
  have h2 : x / y < ⌊x / y⌋ + 1 := Int.lt_floor_add_one _
  have hxy : y * (x / y) = x := by field_simp
  constructor
  · nlinarith [mul_le_mul_of_nonneg_left h1 hy.le]
  · nlinarith [mul_lt_mul_of_pos_left h2 hy]

/-- A frame whose baseline is unset, or not ahead of its timestamp,
measures a nonnegative `deltaTime`. -/
theorem frameDelta_nonneg (s : SimState) (t : ℚ)
    (h : s.lastTime = 0 ∨ s.lastTime ≤ t) : 0 ≤ frameDelta s t := by
  rw [frameDelta]
  split_ifs with h0
  · simp
  · rcases h with h | h
    · exact absurd h h0
    · have : 0 ≤ t - s.lastTime := by linarith
      positivity

/-- An absolute value is dominated by `|B|` when the argument is `B`, `-B`
or `0` (the three shapes produced by the piecewise-linear track mapping). -/
theorem abs_le_abs_of_eq_or {A B : ℚ} (h : A = B ∨ A = -B ∨ A = 0) : |A| ≤ |B| := by
  rcases h with h | h | h <;> subst h <;> simp [abs_neg, abs_nonneg]

/-- Norm of a vector scaled componentwise by `c`. -/
theorem scaled_norm (a b c : ℝ) :
    Real.sqrt ((a * c) * (a * c) + (b * c) * (b * c)) = |c| * Real.sqrt (a * a + b * b) := by
  rw [show (a * c) * (a * c) + (b * c) * (b * c) = c ^ 2 * (a * a + b * b) by ring,
    Real.sqrt_mul (sq_nonneg c), Real.sqrt_sq_eq_abs]

/-- Distances to the target are nonnegative. -/
theorem distToTarget_nonneg (be : Chem) : 0 ≤ distToTarget be := Real.sqrt_nonneg _

/-- A carrier within the 5-unit epsilon is removed by the chemistry step. -/
theorem stepOne_none (dt : ℚ) (be : Chem) (h : distToTarget be < 5) :
    stepOne dt be = none := by
  rw [stepOne, if_pos h]

/-- A carrier at or beyond the epsilon survives the step and moves. -/
theorem stepOne_move (dt : ℚ) (be : Chem) (h : 5 ≤ distToTarget be) :
    stepOne dt be = some (moveOne dt be) := by
  rw [stepOne, if_neg (not_lt.mpr h)]

/-- The movement step changes the distance to the target to
`|dist - 100 * dt|`: the carrier travels exactly `100 * dt` along the
straight line to the target (overshoot reflects through the target). -/
theorem distToTarget_move (dt : ℚ) (be : Chem) (h : 5 ≤ distToTarget be) :
    distToTarget (moveOne dt be) = |distToTarget be - 100 * (dt : ℝ)| := by
  have hd : (0 : ℝ) < distToTarget be := lt_of_lt_of_le (by norm_num) h
  have hd0 : distToTarget be ≠ 0 := ne_of_gt hd
  set d := distToTarget be with hdd
  rw [moveOne, distToTarget]
  dsimp only
  have hx : (325 + 75 : ℝ) - (be.x + (325 + 75 - be.x) / d * 100 * (dt : ℝ))
      = (325 + 75 - be.x) * ((d - 100 * (dt : ℝ)) / d) := by
    field_simp
    ring
  have hy : (7.5 : ℝ) - (be.y + (7.5 - be.y) / d * 100 * (dt : ℝ))
      = (7.5 - be.y) * ((d - 100 * (dt : ℝ)) / d) := by
    field_simp
    ring
  rw [hx, hy, scaled_norm]
  have hsq : Real.sqrt ((325 + 75 - be.x) * (325 + 75 - be.x) + (7.5 - be.y) * (7.5 - be.y))
      = d := by rw [hdd, distToTarget]
  rw [hsq, abs_div, abs_of_pos hd, div_mul_cancel₀ _ hd0]

/-- A removed carrier stays removed under iteration. -/
theorem stepN_none_eq (dt : ℚ) (n : ℕ) : stepN dt n none = none := by
  induction n with
  | zero => rfl
  | succ n ih =>
      rw [stepN]
      simpa using ih

/-- Unfolding one iteration of the per-carrier stepping on a live carrier. -/
theorem stepN_succ_some (dt : ℚ) (n : ℕ) (be : Chem) :
    stepN dt (n + 1) (some be) = stepN dt n (stepOne dt be) := by
  rw [stepN]
  simp

/-- Any carrier whose distance is below `5 + k * step` is removed within
`k + 1` iterations, provided the per-tick step `100 * dt` is positive and at
most the 5-unit epsilon (so there is no overshoot past the removal zone). -/
theorem chem_removed (dt : ℚ) (hle : 100 * (dt : ℝ) ≤ 5) :
    ∀ (k : ℕ) (be : Chem), distToTarget be < 5 + k * (100 * (dt : ℝ)) →
      ∃ n : ℕ, n ≤ k + 1 ∧ stepN dt n (some be) = none := by
  intro k
  induction k with
  | zero =>
      intro be h
      have h5 : distToTarget be < 5 := by simpa using h
      exact ⟨1, le_refl 1, by rw [stepN_succ_some, stepOne_none dt be h5, stepN_none_eq]⟩
  | succ k ih =>
      intro be h
      by_cases h5 : distToTarget be < 5
      · exact ⟨1, by omega, by rw [stepN_succ_some, stepOne_none dt be h5, stepN_none_eq]⟩
      · push_neg at h5
        have hdist : distToTarget (moveOne dt be) = distToTarget be - 100 * (dt : ℝ) := by
          rw [distToTarget_move dt be h5]
          exact abs_of_nonneg (by linarith)
        have hcast : ((k + 1 : ℕ) : ℝ) * (100 * (dt : ℝ))
            = (k : ℝ) * (100 * (dt : ℝ)) + 100 * (dt : ℝ) := by
          push_cast
          ring
        have hlt : distToTarget (moveOne dt be) < 5 + k * (100 * (dt : ℝ)) := by
          rw [hdist]
          rw [hcast] at h
          linarith
        obtain ⟨m, hm, hnone⟩ := ih (moveOne dt be) hlt
        exact ⟨m + 1, by omega, by rw [stepN_succ_some, stepOne_move dt be h5, hnone]⟩

/-- One frame preserves the battery invariant, advancing the event count
exactly when the depletion event fires. -/
theorem invB_step (s : SimState) (n : ℕ) (f : FrameInput) (h : InvB s n) :
    InvB (loop f s) (n + if firesDepletion s f then 1 else 0) := by
  obtain ⟨hc, hn, hs, hd⟩ := h
  by_cases hf : firesDepletion s f = true
  · have hEp : energized s = true ∧ (1000 : ℚ) ≤ f.time - s.lastSecond := by
      simpa [firesDepletion] using hf
    have hdead : s.isBatteryDead = false := by
      have h1 := hEp.1
      simp [energized] at h1
      exact h1.2
    have hn15 : ¬ (15 ≤ n) := by
      intro hge
      rw [hd] at hdead
      simp [hge] at hdead
    have hn14 : n ≤ 14 := by omega
    have hnew : newElectrolyte s f = max 0 (75 - 5 * ((n + 1 : ℕ) : ℤ)) := by
      rw [newElectrolyte, if_pos hf, hs]
      simp only [ELECTROLYTE_DRAIN_S]
      push_cast
      omega
    simp only [hf, if_true]
    refine ⟨by rw [loop_isCircuitClosed]; exact hc, by omega, by
      rw [loop_electrolyteHeight]; exact hnew, ?_⟩
    rw [loop_isBatteryDead, newDead, hf, hnew]
    by_cases h14 : n = 14
    · subst h14
      norm_num
    · have hne : ¬ (max 0 (75 - 5 * ((n + 1 : ℕ) : ℤ)) = 0) := by
        push_cast
        omega
      have h15 : ¬ (15 ≤ n + 1) := by omega
      simp [hne, hd, hn15, h15]
      omega
  · have hf' : firesDepletion s f = false := by simpa using hf
    simp only [hf', Bool.false_eq_true, if_false, Nat.add_zero]
    refine ⟨by rw [loop_isCircuitClosed]; exact hc, hn, ?_, ?_⟩
    · rw [loop_electrolyteHeight, newElectrolyte, if_neg (by simp [hf']), hs]
    · rw [loop_isBatteryDead, newDead, hf', hd]
      simp

/-- The battery invariant is preserved along any run of frames. -/
theorem invB_run (fs : List FrameInput) (s : SimState) (n : ℕ) (h : InvB s n) :
    InvB (run s fs) (n + eventsFired s fs) := by
  induction fs generalizing s n with
  | nil => simpa [run, eventsFired] using h
  | cons f fs ih =>
      have h2 := ih (loop f s) (n + if firesDepletion s f then 1 else 0) (invB_step s n f h)
      simp only [run, eventsFired]
      rw [← Nat.add_assoc]
      exact h2

end Lemmas

/-- C1: battery depletion from a freshly toggled-on circuit.  The code
starts the electrolyte at 75 (not 100): after `N` depletion events the
stored charge is `max 0 (75 - 5 N)`, and the dead flag holds exactly once 15
events have fired, i.e. exactly from the event in which the stored charge
first reaches 0. -/
theorem spec_c1 (es : List Electron) (fs : List FrameInput) :
    (run (handleToggle (initState es)) fs).electrolyteHeight
      = max 0 (75 - 5 * (eventsFired (handleToggle (initState es)) fs : ℤ))
    ∧ ((run (handleToggle (initState es)) fs).isBatteryDead = true
        ↔ 15 ≤ eventsFired (handleToggle (initState es)) fs) := by
  have h0 : InvB (handleToggle (initState es)) 0 := by
    refine ⟨?_, by omega, ?_, ?_⟩ <;> norm_num [handleToggle, initState]
  obtain ⟨_, _, hs, hd⟩ := invB_run fs (handleToggle (initState es)) 0 h0
  rw [Nat.zero_add] at hs hd
  exact ⟨hs, by rw [hd]; simp⟩

/-- C1 counterexample: on the very first frame after closing the circuit the
measured elapsed time is 0 (zero whole accumulated seconds), yet a depletion
event already fires (`time - lastSecond = 1000 - 0 ≥ 1000`) and leaves the
stored charge at 70, not at the claimed `max 0 (100 - 5 N)` for `N = 0`. -/
theorem spec_c1_counterexample :
    frameDelta (handleToggle (initState [])) 1000 = 0
    ∧ (run (handleToggle (initState [])) [fIn 1000]).electrolyteHeight = 70
    ∧ (70 : ℤ) ≠ max 0 (100 - 5 * (0 : ℤ)) := by
  refine ⟨?_, ?_, by norm_num⟩
  · norm_num [frameDelta, handleToggle, initState]
  · norm_num [run, loop, frameCore, newElectrolyte, firesDepletion, energized, handleToggle,
      initState, fIn, ELECTROLYTE_DRAIN_S]

/-- C10: in every reachable state the electrolyte level and the visible-ion
count are equal — initialized together at 75, drained together by 5 with the
same floor, and restored together to 75 on reset. -/
theorem spec_c10 (s : SimState) (h : Reachable s) :
    s.electrolyteHeight = s.visibleIons := by
  induction h with
  | init es => rfl
  | frame s f _ ih =>
      simp only [loop_electrolyteHeight, loop_visibleIons, newElectrolyte, newIons,
        ELECTROLYTE_DRAIN_S, ION_DRAIN_S, ih]
  | tog s _ ih =>
      rw [handleToggle]
      split_ifs <;> simp [ih]

/-- C10 witness: the invariant instantiated at the initial state. -/
theorem spec_c10_witness : (initState []).electrolyteHeight = (initState []).visibleIons :=
  spec_c10 (initState []) (Reachable.init [])

/-- C2 (amended): the toggle taken while dead restores the gauges to their
initial value 75 (not the claimed 100), clears the dead flag, forces the
switch open, and restarts the once-per-second accumulator; all other state
is kept. -/
theorem spec_c2 (s : SimState) (h : s.isBatteryDead = true) :
    handleToggle s = { s with electrolyteHeight := 75, visibleIons := 75,
                              isBatteryDead := false, isCircuitClosed := false,
                              lastSecond := 0 } := by
  rw [handleToggle, if_pos h]

/-- C2 witness: the reset applied to a concrete dead state. -/
theorem spec_c2_witness :
    stateDead.isBatteryDead = true
    ∧ handleToggle stateDead = { stateDead with electrolyteHeight := 75, visibleIons := 75,
                                                isBatteryDead := false, isCircuitClosed := false,
                                                lastSecond := 0 } :=
  ⟨rfl, spec_c2 stateDead rfl⟩

/-- C2 counterexample: resetting a dead battery leaves both gauges at 75,
not at the claimed 100. -/
theorem spec_c2_counterexample :
    (handleToggle stateDead).electrolyteHeight = 75
    ∧ (handleToggle stateDead).visibleIons = 75
    ∧ (75 : ℤ) ≠ 100 := by
  refine ⟨?_, ?_, by norm_num⟩ <;> rfl

/-- C8: while dead, the toggle performs the full reset (gauges back to the
initial 75) and forces the switch open regardless of its previous position;
while alive, it flips exactly the switch and leaves every other state hook
and both carrier populations untouched. -/
theorem spec_c8 (s : SimState) :
    (s.isBatteryDead = true →
      (handleToggle s).isCircuitClosed = false
      ∧ (handleToggle s).electrolyteHeight = 75
      ∧ (handleToggle s).visibleIons = 75
      ∧ (handleToggle s).isBatteryDead = false
      ∧ (handleToggle s).electrons = s.electrons
      ∧ (handleToggle s).batteryElectrons = s.batteryElectrons
      ∧ (handleToggle s).lastTime = s.lastTime
      ∧ (handleToggle s).idCounter = s.idCounter)
    ∧ (s.isBatteryDead = false →
      (handleToggle s).isCircuitClosed = !s.isCircuitClosed
      ∧ (handleToggle s).electrolyteHeight = s.electrolyteHeight
      ∧ (handleToggle s).visibleIons = s.visibleIons
      ∧ (handleToggle s).isBatteryDead = s.isBatteryDead
      ∧ (handleToggle s).electrons = s.electrons
      ∧ (handleToggle s).batteryElectrons = s.batteryElectrons
      ∧ (handleToggle s).lastTime = s.lastTime
      ∧ (handleToggle s).idCounter = s.idCounter) := by
  constructor <;> intro h <;> simp [handleToggle, h]

/-- C8 witness: both toggle branches exercised at concrete states. -/
theorem spec_c8_witness :
    stateDead.isBatteryDead = true
    ∧ (handleToggle stateDead).isCircuitClosed = false
    ∧ stateC3.isBatteryDead = false
    ∧ (handleToggle stateC3).isCircuitClosed = !stateC3.isCircuitClosed :=
  ⟨rfl, ((spec_c8 stateDead).1 rfl).1, rfl, ((spec_c8 stateC3).2 rfl).1⟩

/-- C4 (amended): only a frame taken with an unset (zero) baseline — the
very first frame after component start — measures zero elapsed time; a
toggle (any `closed`/`dead` transition) does NOT discard the baseline
timestamp, it only restarts the once-per-second accumulator, so the frame
after a transition measures time elapsed since the last pre-transition
frame. -/
theorem spec_c4 (s : SimState) (t : ℚ) (f : FrameInput) :
    (s.lastTime = 0 → frameDelta s t = 0)
    ∧ (s.lastTime ≠ 0 → frameDelta s t = (t - s.lastTime) / 1000)
    ∧ (handleToggle s).lastTime = s.lastTime
    ∧ (handleToggle s).lastSecond = 0
    ∧ (loop f s).lastTime = f.time := by
  refine ⟨?_, ?_, ?_, ?_, loop_lastTime f s⟩
  · intro h
    rw [frameDelta, if_pos h]
    simp
  · intro h
    rw [frameDelta, if_neg h]
  · rw [handleToggle]
    split_ifs <;> rfl
  · rw [handleToggle]
    split_ifs <;> rfl

/-- C4 witness: the zero-elapsed first frame and the post-toggle baseline
persistence at concrete states. -/
theorem spec_c4_witness :
    frameDelta (initState []) 5 = 0
    ∧ frameDelta stateC3 2000 = (2000 - stateC3.lastTime) / 1000
    ∧ (handleToggle stateC3).lastTime = stateC3.lastTime :=
  ⟨(spec_c4 (initState []) 5 (fIn 0)).1 rfl,
   (spec_c4 stateC3 2000 (fIn 0)).2.1 (by norm_num [stateC3]),
   (spec_c4 stateC3 2000 (fIn 0)).2.2.1⟩

/-- C4 counterexample: frame at 1000 ms, toggle (a `closed` transition),
then a frame at 2000 ms.  The claim predicts the post-transition frame
measures zero elapsed time; in fact the baseline survives the toggle, the
frame measures a full second, and the carrier moves 20 units. -/
theorem spec_c4_counterexample :
    (handleToggle (loop (fIn 1000) (initState [eZero]))).lastTime = 1000
    ∧ frameDelta (handleToggle (loop (fIn 1000) (initState [eZero]))) 2000 = 1
    ∧ (1 : ℚ) ≠ 0
    ∧ (loop (fIn 2000) (handleToggle (loop (fIn 1000) (initState [eZero])))).electrons
        = [{ eZero with trackPos := 20 }] := by
  refine ⟨?_, ?_, by norm_num, ?_⟩
  · norm_num [loop, frameCore, handleToggle, newDead, newElectrolyte, newIons, newLastSecond,
      newElectrons, firesDepletion, spawnsChem, energized, initState, fIn]
  · norm_num [loop, frameCore, handleToggle, newDead, newElectrolyte, newIons, newLastSecond,
      newElectrons, firesDepletion, spawnsChem, energized, initState, fIn, frameDelta]
  · norm_num [loop, frameCore, handleToggle, newDead, newElectrolyte, newIons, newLastSecond,
      newElectrons, firesDepletion, spawnsChem, energized, initState, fIn, frameDelta,
      advanceElectron, jsMod, ratTrunc, SPEED_PX_S, PERIMETER, TRACK_W, TRACK_H, eZero]

/-- C5 (amended): the code performs no clamping of `deltaTime`; provided the
frame's elapsed time is nonnegative (baseline unset or not ahead of the
timestamp, which monotone animation-frame timestamps guarantee), every
stationary carrier's track coordinate stays in `[0, PERIMETER)` after the
frame, wrap-around included.  A negative delta can leave the range (see the
counterexample). -/
theorem spec_c5 (s : SimState) (f : FrameInput)
    (ht : s.lastTime = 0 ∨ s.lastTime ≤ f.time)
    (hall : ∀ e ∈ s.electrons, 0 ≤ e.trackPos ∧ e.trackPos < PERIMETER) :
    ∀ e ∈ (loop f s).electrons, 0 ≤ e.trackPos ∧ e.trackPos < PERIMETER := by
  intro e he
  rw [loop_electrons, newElectrons] at he
  split_ifs at he with hE
  · obtain ⟨e0, he0, rfl⟩ := List.mem_map.mp he
    have hdt : 0 ≤ frameDelta s f.time := frameDelta_nonneg s f.time ht
    have h0 := hall e0 he0
    have harg : 0 ≤ e0.trackPos + SPEED_PX_S * frameDelta s f.time := by
      have : 0 ≤ SPEED_PX_S * frameDelta s f.time := by
        apply mul_nonneg _ hdt
        norm_num [SPEED_PX_S]
      linarith [h0.1]
    have hb := jsMod_bounds _ PERIMETER harg (by norm_num [PERIMETER, TRACK_W, TRACK_H])
    simpa [advanceElectron] using hb
  · exact hall e he

/-- C5 witness: the range invariant through a concrete wrap-around frame. -/
theorem spec_c5_witness :
    (state2030.lastTime = 0 ∨ state2030.lastTime ≤ (fIn 2000).time)
    ∧ (∀ e ∈ state2030.electrons, 0 ≤ e.trackPos ∧ e.trackPos < PERIMETER)
    ∧ ∀ e ∈ (loop (fIn 2000) state2030).electrons, 0 ≤ e.trackPos ∧ e.trackPos < PERIMETER := by
  have h1 : state2030.lastTime = 0 ∨ state2030.lastTime ≤ (fIn 2000).time :=
    Or.inr (by norm_num [state2030, stateC3, fIn])
  have h2 : ∀ e ∈ state2030.electrons, 0 ≤ e.trackPos ∧ e.trackPos < PERIMETER := by
    intro e he
    simp [state2030, stateC3] at he
    subst he
    norm_num [e2030, eZero, PERIMETER, TRACK_W, TRACK_H]
  exact ⟨h1, h2, spec_c5 state2030 (fIn 2000) h1 h2⟩

/-- C5 counterexample: a frame whose timestamp lies one second before the
stored baseline (delta -1 s) is not clamped: the carrier at coordinate 0 is
moved to -20, outside `[0, PERIMETER)`, because the JavaScript remainder
keeps the sign of its dividend. -/
theorem spec_c5_counterexample :
    (loop (fIn 1000) stateNeg).electrons = [{ eZero with trackPos := -20 }]
    ∧ ¬ (0 ≤ (-20 : ℚ)) := by
  constructor
  · norm_num [loop, frameCore, newElectrons, energized, stateNeg, stateC3, fIn, advanceElectron,
      frameDelta, jsMod, ratTrunc, SPEED_PX_S, PERIMETER, TRACK_W, TRACK_H, eZero]
  · norm_num

/-- C9: when energized, one frame advances every stationary carrier by
exactly `SPEED_PX_S * deltaTime`, wrapped by the remainder modulo
`PERIMETER`, with the same formula (hence the same speed) for every carrier;
when not energized the carrier list is untouched; the concrete scenario
`(2030 + 20 * 1) % 2040 = 10` is included. -/
theorem spec_c9 (s : SimState) (f : FrameInput) :
    (energized s = true →
      (loop f s).electrons = s.electrons.map (advanceElectron (frameDelta s f.time)))
    ∧ (energized s = false → (loop f s).electrons = s.electrons)
    ∧ (advanceElectron 1 e2030).trackPos = 10 := by
  refine ⟨?_, ?_, ?_⟩
  · intro h
    rw [loop_electrons, newElectrons, if_pos h]
  · intro h
    rw [loop_electrons, newElectrons, if_neg (by simp [h])]
  · norm_num [advanceElectron, e2030, eZero, jsMod, ratTrunc, SPEED_PX_S, PERIMETER,
      TRACK_W, TRACK_H]

/-- C9 witness: the energized advancement at a concrete state, with the
wrap-around scenario 2030 to 10 evaluated. -/
theorem spec_c9_witness :
    energized state2030 = true
    ∧ (loop (fIn 2000) state2030).electrons
        = state2030.electrons.map (advanceElectron (frameDelta state2030 (fIn 2000).time))
    ∧ state2030.electrons.map (advanceElectron (frameDelta state2030 (fIn 2000).time))
        = [{ eZero with trackPos := 10 }] := by
  refine ⟨rfl, (spec_c9 state2030 (fIn 2000)).1 rfl, ?_⟩
  norm_num [state2030, stateC3, e2030, eZero, advanceElectron, frameDelta, fIn,
    jsMod, ratTrunc, SPEED_PX_S, PERIMETER, TRACK_W, TRACK_H]

/-- C3 (amended): within one frame the stationary carriers are advanced
BEFORE the depletion step, both gated on the energized flag read at frame
start; a depletion event that sets the dead flag therefore still lets the
carriers move in that same frame, and motion stops from the next frame on
(one frame later than the claim states). -/
theorem spec_c3 (s : SimState) (f g : FrameInput) (h : energized s = true) :
    (loop f s).electrons = s.electrons.map (advanceElectron (frameDelta s f.time))
    ∧ ((loop f s).isBatteryDead = true →
        (loop g (loop f s)).electrons = (loop f s).electrons) := by
  constructor
  · rw [loop_electrons, newElectrons, if_pos h]
  · intro hd
    rw [loop_electrons, newElectrons, if_neg]
    simp [energized, hd]

/-- C3 witness: the amended ordering at the concrete near-dead state. -/
theorem spec_c3_witness :
    energized stateC3 = true
    ∧ (loop (fIn 2000) stateC3).electrons
        = stateC3.electrons.map (advanceElectron (frameDelta stateC3 (fIn 2000).time))
    ∧ ((loop (fIn 2000) stateC3).isBatteryDead = true →
        (loop (fIn 3000) (loop (fIn 2000) stateC3)).electrons
          = (loop (fIn 2000) stateC3).electrons) :=
  ⟨rfl, (spec_c3 stateC3 (fIn 2000) (fIn 3000) rfl).1,
   (spec_c3 stateC3 (fIn 2000) (fIn 3000) rfl).2⟩

/-- C3 counterexample: in the frame whose depletion event kills the battery
(electrolyte 5 to 0), the carrier still moves from 0 to 20 — carrier motion
is NOT stopped in the tick of the depletion event. -/
theorem spec_c3_counterexample :
    (loop (fIn 2000) stateC3).isBatteryDead = true
    ∧ (loop (fIn 2000) stateC3).electrons = [{ eZero with trackPos := 20 }]
    ∧ (loop (fIn 2000) stateC3).electrons ≠ stateC3.electrons := by
  have h2 : (loop (fIn 2000) stateC3).electrons = [{ eZero with trackPos := 20 }] := by
    norm_num [loop, frameCore, newElectrons, energized, stateC3, fIn, advanceElectron,
      frameDelta, jsMod, ratTrunc, SPEED_PX_S, PERIMETER, TRACK_W, TRACK_H, eZero]
  refine ⟨?_, h2, ?_⟩
  · norm_num [loop, frameCore, newDead, newElectrolyte, firesDepletion, energized, stateC3,
      fIn, ELECTROLYTE_DRAIN_S]
  · rw [h2]
    norm_num [stateC3, eZero]

/-- C6 (amended): `getXY 0` and `getXY PERIMETER` agree in position (x and
y) but NOT in the full output — the tangent angle is 0 versus 270 and the
axis flag `true` versus `false` — and the (x, y) mapping is continuous at
the three interior segment boundaries (1-Lipschitz in a unit neighbourhood
of each corner), the fourth boundary being the wrap where the positions at
0 and PERIMETER coincide. -/
theorem spec_c6 :
    ((getXY 0).x = (getXY PERIMETER).x ∧ (getXY 0).y = (getXY PERIMETER).y)
    ∧ (getXY 0).angle ≠ (getXY PERIMETER).angle
    ∧ (getXY 0).isHorizontal ≠ (getXY PERIMETER).isHorizontal
    ∧ (∀ p : ℚ, |p - TRACK_W| ≤ 1 →
        |(getXY p).x - (getXY TRACK_W).x| ≤ |p - TRACK_W|
        ∧ |(getXY p).y - (getXY TRACK_W).y| ≤ |p - TRACK_W|)
    ∧ (∀ p : ℚ, |p - (TRACK_W + TRACK_H)| ≤ 1 →
        |(getXY p).x - (getXY (TRACK_W + TRACK_H)).x| ≤ |p - (TRACK_W + TRACK_H)|
        ∧ |(getXY p).y - (getXY (TRACK_W + TRACK_H)).y| ≤ |p - (TRACK_W + TRACK_H)|)
    ∧ (∀ p : ℚ, |p - (2 * TRACK_W + TRACK_H)| ≤ 1 →
        |(getXY p).x - (getXY (2 * TRACK_W + TRACK_H)).x| ≤ |p - (2 * TRACK_W + TRACK_H)|
        ∧ |(getXY p).y - (getXY (2 * TRACK_W + TRACK_H)).y| ≤ |p - (2 * TRACK_W + TRACK_H)|) := by
  have hW : getXY TRACK_W = ⟨RAIL_OFFSET + TRACK_W, RAIL_OFFSET, 0, true⟩ := by
    rw [getXY, if_pos le_rfl]
  have hWH : getXY (TRACK_W + TRACK_H) =
      ⟨RAIL_OFFSET + TRACK_W, RAIL_OFFSET + (TRACK_W + TRACK_H - TRACK_W), 90, false⟩ := by
    rw [getXY, if_neg (by norm_num [TRACK_W, TRACK_H]), if_pos le_rfl]
  have h2WH : getXY (2 * TRACK_W + TRACK_H) =
      ⟨RAIL_OFFSET + TRACK_W - (2 * TRACK_W + TRACK_H - (TRACK_W + TRACK_H)),
        RAIL_OFFSET + TRACK_H, 180, true⟩ := by
    rw [getXY, if_neg (by norm_num [TRACK_W, TRACK_H]),
      if_neg (by norm_num [TRACK_W, TRACK_H]), if_pos le_rfl]
  refine ⟨⟨?_, ?_⟩, ?_, ?_, ?_, ?_, ?_⟩
  · norm_num [getXY, PERIMETER, TRACK_W, TRACK_H, RAIL_OFFSET]
  · norm_num [getXY, PERIMETER, TRACK_W, TRACK_H, RAIL_OFFSET]
  · norm_num [getXY, PERIMETER, TRACK_W, TRACK_H, RAIL_OFFSET]
  · norm_num [getXY, PERIMETER, TRACK_W, TRACK_H, RAIL_OFFSET]
  · intro p hp
    obtain ⟨hl, hr⟩ := abs_le.mp hp
    have hH1 : (2 : ℚ) ≤ TRACK_H := by norm_num [TRACK_H]
    have hW1 : (2 : ℚ) ≤ TRACK_W := by norm_num [TRACK_W]
    rw [hW, getXY]
    split_ifs with h1 h2 h3 <;> dsimp only
    · exact ⟨abs_le_abs_of_eq_or (Or.inl (by ring)),
        abs_le_abs_of_eq_or (Or.inr (Or.inr (by ring)))⟩
    · exact ⟨abs_le_abs_of_eq_or (Or.inr (Or.inr (by ring))),
        abs_le_abs_of_eq_or (Or.inl (by ring))⟩
    · exfalso
      exact h2 (by linarith)
    · exfalso
      exact h2 (by linarith)
  · intro p hp
    obtain ⟨hl, hr⟩ := abs_le.mp hp
    have hH1 : (2 : ℚ) ≤ TRACK_H := by norm_num [TRACK_H]
    have hW1 : (2 : ℚ) ≤ TRACK_W := by norm_num [TRACK_W]
    rw [hWH, getXY]
    split_ifs with h1 h2 h3 <;> dsimp only
    · exfalso
      linarith
    · exact ⟨abs_le_abs_of_eq_or (Or.inr (Or.inr (by ring))),
        abs_le_abs_of_eq_or (Or.inl (by ring))⟩
    · exact ⟨abs_le_abs_of_eq_or (Or.inr (Or.inl (by ring))),
        abs_le_abs_of_eq_or (Or.inr (Or.inr (by ring)))⟩
    · exfalso
      exact h3 (by linarith)
  · intro p hp
    obtain ⟨hl, hr⟩ := abs_le.mp hp
    have hH1 : (2 : ℚ) ≤ TRACK_H := by norm_num [TRACK_H]
    have hW1 : (2 : ℚ) ≤ TRACK_W := by norm_num [TRACK_W]
    rw [h2WH, getXY]
    split_ifs with h1 h2 h3 <;> dsimp only
    · exfalso
      linarith
    · exfalso
      linarith
    · exact ⟨abs_le_abs_of_eq_or (Or.inr (Or.inl (by ring))),
        abs_le_abs_of_eq_or (Or.inr (Or.inr (by ring)))⟩
    · exact ⟨abs_le_abs_of_eq_or (Or.inr (Or.inr (by ring))),
        abs_le_abs_of_eq_or (Or.inr (Or.inl (by ring)))⟩

/-- C6 witness: the boundary continuity bound instantiated half a unit past
the first corner. -/
theorem spec_c6_witness :
    |(635.5 : ℚ) - TRACK_W| ≤ 1
    ∧ (|(getXY 635.5).x - (getXY TRACK_W).x| ≤ |(635.5 : ℚ) - TRACK_W|
        ∧ |(getXY 635.5).y - (getXY TRACK_W).y| ≤ |(635.5 : ℚ) - TRACK_W|) :=
  ⟨by norm_num [TRACK_W, abs_le], spec_c6.2.2.2.1 635.5 (by norm_num [TRACK_W, abs_le])⟩

/-- C6 counterexample: the claimed FULL output equality
`getXY 0 = getXY PERIMETER` is false — the records differ in tangent angle
(0 versus 270) and axis orientation. -/
theorem spec_c6_counterexample : getXY 0 ≠ getXY PERIMETER := by
  norm_num [getXY, PERIMETER, TRACK_W, TRACK_H, RAIL_OFFSET]

/-- C7 (amended): each chemistry carrier moves straight toward the fixed
target `(400, 7.5)` by exactly `100 * deltaTime` per frame and is removed in
the frame that observes its distance below 5.  Removal within a bounded
number of frames holds PROVIDED the per-frame displacement `100 * dt` is
positive and at most the 5-unit epsilon (true at realistic frame rates):
then the carrier is gone within `dist / (100 dt) + 2` frames, i.e. within
elapsed time `dist / 100` plus two frames.  For larger per-frame
displacements the carrier can oscillate around the target forever (see the
counterexample), so the unconditional claim fails. -/
theorem spec_c7 (dt : ℚ) (be : Chem) (h1 : 0 < 100 * (dt : ℝ))
    (h2 : 100 * (dt : ℝ) ≤ 5) :
    (distToTarget be < 5 → stepOne dt be = none)
    ∧ (5 ≤ distToTarget be →
        stepOne dt be = some (moveOne dt be)
        ∧ distToTarget (moveOne dt be) = distToTarget be - 100 * (dt : ℝ)
        ∧ (moveOne dt be).id = be.id)
    ∧ ∃ n : ℕ, (n : ℝ) ≤ distToTarget be / (100 * (dt : ℝ)) + 2
        ∧ stepN dt n (some be) = none := by
  refine ⟨stepOne_none dt be, ?_, ?_⟩
  · intro h5
    refine ⟨stepOne_move dt be h5, ?_, rfl⟩
    rw [distToTarget_move dt be h5]
    exact abs_of_nonneg (by linarith)
  · by_cases h5 : distToTarget be < 5
    · obtain ⟨n, hn, hnone⟩ := chem_removed dt h2 0 be (by simpa using h5)
      refine ⟨n, ?_, hnone⟩
      have hn1 : (n : ℝ) ≤ 1 := by exact_mod_cast hn
      have hd0 : 0 ≤ distToTarget be / (100 * (dt : ℝ)) :=
        div_nonneg (distToTarget_nonneg be) h1.le
      linarith
    · push_neg at h5
      have hceil0 : (0 : ℝ) ≤ (distToTarget be - 5) / (100 * (dt : ℝ)) :=
        div_nonneg (by linarith) h1.le
      have hc0 : 0 ≤ ⌈(distToTarget be - 5) / (100 * (dt : ℝ))⌉ := Int.ceil_nonneg hceil0
      have hcast : ((⌈(distToTarget be - 5) / (100 * (dt : ℝ))⌉.toNat : ℕ) : ℝ)
          = ((⌈(distToTarget be - 5) / (100 * (dt : ℝ))⌉ : ℤ) : ℝ) := by
        exact_mod_cast congrArg (fun z : ℤ => (z : ℝ)) (Int.toNat_of_nonneg hc0)
      have heq : ((⌈(distToTarget be - 5) / (100 * (dt : ℝ))⌉.toNat + 1 : ℕ) : ℝ)
          = (⌈(distToTarget be - 5) / (100 * (dt : ℝ))⌉ : ℝ) + 1 := by
        rw [Nat.cast_add, Nat.cast_one, hcast]
      have hbound : distToTarget be
          < 5 + ((⌈(distToTarget be - 5) / (100 * (dt : ℝ))⌉.toNat + 1 : ℕ) : ℝ)
              * (100 * (dt : ℝ)) := by
        have hle1 : (distToTarget be - 5) / (100 * (dt : ℝ))
            ≤ (⌈(distToTarget be - 5) / (100 * (dt : ℝ))⌉ : ℝ) := Int.le_ceil _
        have hmul : distToTarget be - 5
            ≤ (⌈(distToTarget be - 5) / (100 * (dt : ℝ))⌉ : ℝ) * (100 * (dt : ℝ)) :=
          (div_le_iff₀ h1).mp hle1
        have hexp : (((⌈(distToTarget be - 5) / (100 * (dt : ℝ))⌉ : ℝ) + 1) * (100 * (dt : ℝ)))
            = (⌈(distToTarget be - 5) / (100 * (dt : ℝ))⌉ : ℝ) * (100 * (dt : ℝ))
              + 100 * (dt : ℝ) := by ring
        rw [heq, hexp]
        linarith
      obtain ⟨n, hn, hnone⟩ := chem_removed dt h2 _ be hbound
      refine ⟨n, ?_, hnone⟩
      have hnR : (n : ℝ)
          ≤ ((⌈(distToTarget be - 5) / (100 * (dt : ℝ))⌉.toNat + 1 : ℕ) : ℝ) + 1 := by
        exact_mod_cast hn
      have hcl : (⌈(distToTarget be - 5) / (100 * (dt : ℝ))⌉ : ℝ)
          < (distToTarget be - 5) / (100 * (dt : ℝ)) + 1 := Int.ceil_lt_add_one _
      have hs5 : (1 : ℝ) ≤ 5 / (100 * (dt : ℝ)) := by
        rw [le_div_iff₀ h1]
        linarith
      have hsplit : (distToTarget be - 5) / (100 * (dt : ℝ))
          = distToTarget be / (100 * (dt : ℝ)) - 5 / (100 * (dt : ℝ)) := by
        ring
      rw [heq] at hnR
      linarith

/-- C7 witness: the bounded-removal conclusion at a 50 ms frame time
(displacement 5 per frame) for the carrier 100 units from the target. -/
theorem spec_c7_witness :
    (0 : ℝ) < 100 * ((1/20 : ℚ) : ℝ)
    ∧ 100 * ((1/20 : ℚ) : ℝ) ≤ 5
    ∧ ∃ n : ℕ, (n : ℝ) ≤ distToTarget chemC / (100 * ((1/20 : ℚ) : ℝ)) + 2
        ∧ stepN (1/20) n (some chemC) = none := by
  have hq : ((1/20 : ℚ) : ℝ) = 1/20 := by norm_num
  exact ⟨by rw [hq]; norm_num, by rw [hq]; norm_num,
    (spec_c7 (1/20) chemC (by rw [hq]; norm_num) (by rw [hq]; norm_num)).2.2⟩

/-- C7 counterexample: with a one-second frame time (displacement 100 per
frame) the carrier 50 units from the target jumps across it forever —
two frames return it to its start, so it is never removed, against the
claimed finite bound `(initial distance) / speed = 0.5 s`. -/
theorem spec_c7_counterexample :
    distToTarget chemA = 50
    ∧ stepOne 1 chemA = some chemB
    ∧ stepOne 1 chemB = some chemA
    ∧ stepN 1 2 (some chemA) = some chemA := by
  have hA : distToTarget chemA = 50 := by
    rw [distToTarget]
    simp only [chemA]
    rw [show ((325 : ℝ) + 75 - 450) * (325 + 75 - 450) + (7.5 - 7.5) * (7.5 - 7.5) = 50 ^ 2
      by norm_num]
    rw [Real.sqrt_sq (by norm_num : (0 : ℝ) ≤ 50)]
  have hB : distToTarget chemB = 50 := by
    rw [distToTarget]
    simp only [chemB]
    rw [show ((325 : ℝ) + 75 - 350) * (325 + 75 - 350) + (7.5 - 7.5) * (7.5 - 7.5) = 50 ^ 2
      by norm_num]
    rw [Real.sqrt_sq (by norm_num : (0 : ℝ) ≤ 50)]
  have hAB : stepOne 1 chemA = some chemB := by
    rw [stepOne_move 1 chemA (by rw [hA]; norm_num), moveOne, hA]
    simp only [chemA, chemB]
    norm_num
  have hBA : stepOne 1 chemB = some chemA := by
    rw [stepOne_move 1 chemB (by rw [hB]; norm_num), moveOne, hB]
    simp only [chemA, chemB]
    norm_num
  refine ⟨hA, hAB, hBA, ?_⟩
  rw [show (2 : ℕ) = 1 + 1 from rfl, stepN_succ_some, hAB,
    show (1 : ℕ) = 0 + 1 from rfl, stepN_succ_some, hBA]
  rfl

end Circuit
